import Mathlib

/-!
Verification development for the Student Records Store of
`src/Assignment_2/Assignment_2.py`.

The backing store is a SQLite file holding one table
`students (id INTEGER PRIMARY KEY, name TEXT NOT NULL, grade TEXT NOT NULL,
email TEXT NOT NULL)`.  We embed the table as a Lean list of `Student`
records kept in storage (rowid) order, and each Python function as a pure
Lean function over that list.  Since `id` is declared `INTEGER PRIMARY KEY`
it is an alias for the rowid; SQLite stores rows in the table b-tree keyed
by rowid, so a full-table `SELECT` without `ORDER BY` scans in ascending id
order, which our list order models.  A fresh rowid (no `AUTOINCREMENT`) is
one larger than the largest rowid currently in use, or `1` for an empty
table; all ids reachable through this program are positive, and `nextId`
below models exactly that allocation rule.
-/

namespace StudentsStore

/-- One row of the `students` table: `(id, name, grade, email)`. -/
structure Student where
  id : Int
  name : String
  grade : String
  email : String
deriving DecidableEq, Repr

/-- The ids of the rows, in storage order. -/
def ids (rows : List Student) : List Int :=
  rows.map (fun s => s.id)

/-- The largest rowid in use, or `0` for an empty table (all rowids
assigned by this program are positive). -/
def maxId (rows : List Student) : Int :=
  (ids rows).foldl max 0

/-- SQLite rowid allocation for `INTEGER PRIMARY KEY` without
`AUTOINCREMENT`: one larger than the largest rowid in use (`1` when the
table is empty, since `maxId` is then `0`). -/
def nextId (rows : List Student) : Int :=
  maxId rows + 1

/-- `add_student(name, grade, email)` (source lines 19-27): executes
`INSERT INTO students (name, grade, email) VALUES (?, ?, ?)`, which
appends a row with a freshly allocated id, commits, and closes.  The
Python function has no `return` statement, so its return value is `None`,
modelled as the `Option Int` component `none`. -/
def add_student (name grade email : String) (rows : List Student) :
    List Student × Option Int :=
  (rows ++ [{ id := nextId rows, name := name, grade := grade, email := email }], none)

/-- `view_students_db()` (source lines 29-42): executes
`SELECT id, name, grade, email FROM students` (no `ORDER BY`, hence
storage = rowid order), fetches all rows and prints them one per line.
The value of this definition is the sequence of rows the call prints
(the `fetchall` result in storage order), not the Python function's
return value — see `view_students_db_ret` for that.  The statement is
read-only, so the table is unchanged. -/
def view_students_db (rows : List Student) : List Student :=
  rows

/-- The Python return value of `view_students_db()`: the function body
has no `return` statement, so the caller receives `None`, never the row
sequence. -/
def view_students_db_ret (_rows : List Student) : Option (List Student) :=
  none

/-- `update_student(student_id, name, grade, email)` (source lines 44-51):
executes `UPDATE students SET name = ?, grade = ?, email = ? WHERE id = ?`,
overwriting the three non-id columns of every row whose id matches, then
commits and closes. -/
def update_student (student_id : Int) (name grade email : String)
    (rows : List Student) : List Student :=
  rows.map (fun s =>
    if s.id = student_id then { s with name := name, grade := grade, email := email }
    else s)

/-- `delete_student(student_id)` (source lines 53-60): executes
`DELETE FROM students WHERE id = ?`, removing every row whose id matches,
then commits and closes. -/
def delete_student (student_id : Int) (rows : List Student) : List Student :=
  rows.filter (fun s => s.id ≠ student_id)

/-- The rows are in strictly ascending id order (the storage invariant of
a rowid table). -/
def idsSorted (rows : List Student) : Prop :=
  List.Pairwise (fun a b => a.id < b.id) rows

instance (rows : List Student) : Decidable (idsSorted rows) := by
  unfold idsSorted
  infer_instance

/-- One Record Store call, as dispatched by the CLI loop. -/
inductive Op where
  | create (name grade email : String)
  | view
  | update (k : Int) (name grade email : String)
  | delete (k : Int)
deriving DecidableEq, Repr

/-- Effect of one operation on the persisted table. -/
def step (rows : List Student) : Op → List Student
  | .create n g e => (add_student n g e rows).1
  | .view => rows
  | .update k n g e => update_student k n g e rows
  | .delete k => delete_student k rows

/-- The table reached by running a sequence of operations against a
freshly schema-initialised (empty) store. -/
def run (ops : List Op) : List Student :=
  ops.foldl step []

/-- The ids SQLite assigns to the successive `create` operations of a
sequence, starting from table state `rows`. -/
def assignedIds (rows : List Student) : List Op → List Int
  | [] => []
  | .create n g e :: rest => nextId rows :: assignedIds (step rows (.create n g e)) rest
  | op :: rest => assignedIds (step rows op) rest

/-- The column declarations of the `students` table, as written in the
`CREATE TABLE` statement of `setup_table` (source line 13). -/
structure ColumnSpec where
  colName : String
  colType : String
  notNull : Bool
  primaryKey : Bool
deriving DecidableEq, Repr

/-- `id INTEGER PRIMARY KEY, name TEXT NOT NULL, grade TEXT NOT NULL,
email TEXT NOT NULL`. -/
def studentsSchema : List ColumnSpec :=
  [{ colName := "id", colType := "INTEGER", notNull := false, primaryKey := true },
   { colName := "name", colType := "TEXT", notNull := true, primaryKey := false },
   { colName := "grade", colType := "TEXT", notNull := true, primaryKey := false },
   { colName := "email", colType := "TEXT", notNull := true, primaryKey := false }]

/-- The backing database file: whether a `students` table exists (and with
which declared columns), plus its persisted rows. -/
structure DBFile where
  schema : Option (List ColumnSpec)
  rows : List Student
deriving DecidableEq, Repr

/-- `setup_table()` (source lines 9-16): executes
`CREATE TABLE IF NOT EXISTS students (...)`, then commits and closes.
`IF NOT EXISTS` makes the statement a no-op whenever a table named
`students` already exists; otherwise it creates the empty table with the
declared columns.  Existing rows are never touched. -/
def setup_table (db : DBFile) : DBFile :=
  match db.schema with
  | none => { schema := some studentsSchema, rows := db.rows }
  | some _ => db

/-- Connection bookkeeping of one Record Store call.  Every function in
the source runs straight-line `connect_db(); execute(...); [commit();]
close()` with no `try`/`finally` and no `with` block, so an exception
raised by `execute` propagates to the caller before `commit`/`close`
run. -/
structure ConnTrace where
  opened : Bool
  committed : Bool
  closed : Bool
  raised : Bool
deriving DecidableEq, Repr

/-- Connection trace of `add_student` when its `INSERT` raises
(`execRaises = true`) or succeeds. -/
def add_student_conn (execRaises : Bool) : ConnTrace :=
  if execRaises then { opened := true, committed := false, closed := false, raised := true }
  else { opened := true, committed := true, closed := true, raised := false }

/-- Connection trace of `view_students_db`; its `SELECT` path never calls
`commit`. -/
def view_students_conn (execRaises : Bool) : ConnTrace :=
  if execRaises then { opened := true, committed := false, closed := false, raised := true }
  else { opened := true, committed := false, closed := true, raised := false }

/-- Connection trace of `update_student`. -/
def update_student_conn (execRaises : Bool) : ConnTrace :=
  if execRaises then { opened := true, committed := false, closed := false, raised := true }
  else { opened := true, committed := true, closed := true, raised := false }

/-- Connection trace of `delete_student`. -/
def delete_student_conn (execRaises : Bool) : ConnTrace :=
  if execRaises then { opened := true, committed := false, closed := false, raised := true }
  else { opened := true, committed := true, closed := true, raised := false }

/-- The errors the embedded statements can signal. -/
inductive PyError where
  | integrityError
deriving DecidableEq, Repr

/-- `add_student` called with possibly-`None` arguments (`none` models
Python `None`, which SQLite binds as SQL `NULL`).  The schema declares
`NOT NULL` on `name`, `grade` and `email`, so the `INSERT` raises
`sqlite3.IntegrityError` when any bound value is `NULL`; the exception
propagates before `commit`, leaving the persisted rows unchanged.
Otherwise the insert proceeds as in `add_student`. -/
def add_student_opt (name grade email : Option String) (rows : List Student) :
    Option PyError × List Student :=
  match name, grade, email with
  | some n, some g, some e => (none, (add_student n g e rows).1)
  | _, _, _ => (some PyError.integrityError, rows)

/-- Python `str.strip()` with no argument: remove leading and trailing
whitespace. -/
def pyStrip (s : String) : String :=
  ⟨((s.toList.dropWhile Char.isWhitespace).reverse.dropWhile Char.isWhitespace).reverse⟩

/-- Python `str.lower()` (ASCII case folding, which suffices for the
`y`/`n` confirmation read here). -/
def pyLower (s : String) : String :=
  ⟨s.toList.map Char.toLower⟩

/-- Python `int(s)` on an already-stripped string: an optional sign
followed by digits, where single underscores may separate digits
(CPython grammar `digit (["_"] digit)*`). -/
def intDigits : List Char → Bool
  | [] => false
  | [c] => c.isDigit
  | c :: '_' :: rest => c.isDigit && intDigits rest
  | c :: rest => c.isDigit && intDigits rest

/-- Numeric value of a digit/underscore string (underscores skipped). -/
def digitsVal (cs : List Char) : Int :=
  cs.foldl (fun a c => if c = '_' then a else a * 10 + (c.toNat - Char.toNat '0')) 0

/-- Python `int(s)`: `some` the parsed integer, or `none` when `int`
raises `ValueError`.  The argument has already been `.strip()`-ed at every
call site in the source, so surrounding whitespace is gone before `int`
sees it. -/
def pyInt (s : String) : Option Int :=
  match s.toList with
  | '+' :: rest => if intDigits rest then some (digitsVal rest) else none
  | '-' :: rest => if intDigits rest then some (-(digitsVal rest)) else none
  | cs => if intDigits cs then some (digitsVal cs) else none

/-- Outcome of one iteration of the CLI menu loop for choices `"3"` and
`"4"`: resulting table, message printed, the id passed to the store
operation when one was invoked, and the loop-control flag `done`. -/
structure StepResult where
  rows : List Student
  message : String
  storeCalledWith : Option Int
  done : Bool
deriving DecidableEq, Repr

/-- Menu choice `"3"` (source lines 94-105): parse the raw id text with
`int(...)`; on `ValueError` print the invalid-id message and fall back to
the loop (the remaining prompts are skipped and `update_student` is not
called); otherwise read the three fields and call `update_student`.  The
loop flag `done` stays `False` on both paths. -/
def menu_update_step (rawId name grade email : String) (rows : List Student) :
    StepResult :=
  match pyInt (pyStrip rawId) with
  | some k =>
      { rows := update_student k name grade email rows,
        message := "Student updated.", storeCalledWith := some k, done := false }
  | none =>
      { rows := rows, message := "Invalid ID. Must be a number.",
        storeCalledWith := none, done := false }

/-- Menu choice `"4"` (source lines 107-119): parse the raw id text with
`int(...)`; on `ValueError` print the invalid-id message and fall back to
the loop; otherwise ask for confirmation and call `delete_student` only on
`"y"`.  The loop flag `done` stays `False` on all paths. -/
def menu_delete_step (rawId confirm : String) (rows : List Student) :
    StepResult :=
  match pyInt (pyStrip rawId) with
  | some k =>
      if pyLower (pyStrip confirm) = "y" then
        { rows := delete_student k rows, message := "Student deleted.",
          storeCalledWith := some k, done := false }
      else
        { rows := rows, message := "Delete canceled.",
          storeCalledWith := none, done := false }
  | none =>
      { rows := rows, message := "Invalid ID. Must be a number.",
        storeCalledWith := none, done := false }

/-- Along a run of operations, every `delete` targets an id strictly below
the current largest id in use (so the maximal record is never deleted). -/
def deletesBelowMax (rows : List Student) : List Op → Bool
  | [] => true
  | .delete k :: rest =>
      decide (k < maxId rows) && deletesBelowMax (step rows (.delete k)) rest
  | op :: rest => deletesBelowMax (step rows op) rest

/-! ### Helper lemmas about `foldl max` and the id invariants -/

lemma le_foldl_max (l : List Int) (m : Int) : m ≤ l.foldl max m := by
  induction l generalizing m with
  | nil => exact le_refl m
  | cons x xs ih =>
      rw [List.foldl_cons]
      exact le_trans (le_max_left m x) (ih (max m x))

lemma mem_le_foldl_max (l : List Int) (m x : Int) (hx : x ∈ l) :
    x ≤ l.foldl max m := by
  induction l generalizing m with
  | nil => cases hx
  | cons y ys ih =>
      rw [List.foldl_cons]
      rcases List.mem_cons.1 hx with h | h
      · subst h
        exact le_trans (le_max_right m x) (le_foldl_max ys (max m x))
      · exact ih (max m y) h

lemma foldl_max_le_of_forall (l : List Int) :
    ∀ m M : Int, m ≤ M → (∀ x ∈ l, x ≤ M) → l.foldl max m ≤ M := by
  induction l with
  | nil => intro m M hm _; exact hm
  | cons y ys ih =>
      intro m M hm h
      rw [List.foldl_cons]
      exact ih (max m y) M (max_le hm (h y (by simp))) (fun x hx => h x (by simp [hx]))

lemma foldl_max_eq_init_or_mem (l : List Int) :
    ∀ m : Int, l.foldl max m = m ∨ l.foldl max m ∈ l := by
  induction l with
  | nil => intro m; exact Or.inl rfl
  | cons y ys ih =>
      intro m
      rw [List.foldl_cons]
      rcases ih (max m y) with h | h
      · rcases max_choice m y with hm | hm
        · exact Or.inl (by rw [h, hm])
        · exact Or.inr (by rw [h, hm]; simp)
      · exact Or.inr (by simp [h])

lemma zero_le_maxId (rows : List Student) : 0 ≤ maxId rows :=
  le_foldl_max (ids rows) 0

lemma id_le_maxId {rows : List Student} {s : Student} (hs : s ∈ rows) :
    s.id ≤ maxId rows :=
  mem_le_foldl_max (ids rows) 0 s.id (List.mem_map_of_mem (fun t => t.id) hs)

lemma id_lt_nextId {rows : List Student} {s : Student} (hs : s ∈ rows) :
    s.id < nextId rows :=
  lt_of_le_of_lt (id_le_maxId hs) (by unfold nextId; omega)

lemma maxId_append_single (rows : List Student) (s : Student) :
    maxId (rows ++ [s]) = max (maxId rows) s.id := by
  unfold maxId ids
  rw [List.map_append, List.foldl_append]
  simp

lemma maxId_add (name grade email : String) (rows : List Student) :
    maxId (add_student name grade email rows).1 = maxId rows + 1 := by
  unfold add_student
  rw [maxId_append_single]
  have h0 : 0 ≤ maxId rows := zero_le_maxId rows
  show max (maxId rows) (nextId rows) = maxId rows + 1
  unfold nextId
  omega

lemma ids_update (k : Int) (n g e : String) (rows : List Student) :
    ids (update_student k n g e rows) = ids rows := by
  unfold ids update_student
  rw [List.map_map]
  induction rows with
  | nil => rfl
  | cons s ss ih =>
      simp only [List.map_cons, Function.comp] at ih ⊢
      rw [ih]
      by_cases h : s.id = k <;> simp [h]

lemma maxId_update (k : Int) (n g e : String) (rows : List Student) :
    maxId (update_student k n g e rows) = maxId rows := by
  unfold maxId
  rw [ids_update]

lemma mem_delete_iff {k : Int} {rows : List Student} {t : Student} :
    t ∈ delete_student k rows ↔ t ∈ rows ∧ t.id ≠ k := by
  unfold delete_student
  simp [List.mem_filter]

lemma maxId_delete_le (k : Int) (rows : List Student) :
    maxId (delete_student k rows) ≤ maxId rows := by
  apply foldl_max_le_of_forall
  · exact zero_le_maxId rows
  · intro x hx
    rcases List.mem_map.1 hx with ⟨s, hs, rfl⟩
    exact id_le_maxId (mem_delete_iff.1 hs).1

lemma maxId_delete_of_lt {k : Int} {rows : List Student} (hk : k < maxId rows) :
    maxId (delete_student k rows) = maxId rows := by
  apply le_antisymm (maxId_delete_le k rows)
  rcases foldl_max_eq_init_or_mem (ids rows) 0 with h | h
  · have : maxId rows = 0 := h
    rw [this]
    exact zero_le_maxId _
  · rcases List.mem_map.1 h with ⟨s, hs, hsid⟩
    have hmem : s ∈ delete_student k rows :=
      mem_delete_iff.2 ⟨hs, by rw [hsid]; exact ne_of_gt hk⟩
    calc maxId rows = s.id := hsid.symm
      _ ≤ maxId (delete_student k rows) := id_le_maxId hmem

/-! ### Sortedness of reachable table states -/

lemma idsSorted_nil : idsSorted [] := List.Pairwise.nil

lemma idsSorted_nodup {rows : List Student} (h : idsSorted rows) :
    (ids rows).Nodup := by
  unfold ids
  unfold idsSorted at h
  exact List.pairwise_map.2 (h.imp (fun hab => ne_of_lt hab))

lemma idsSorted_add (n g e : String) {rows : List Student} (h : idsSorted rows) :
    idsSorted (add_student n g e rows).1 := by
  unfold idsSorted at h ⊢
  show List.Pairwise _ (rows ++ [{ id := nextId rows, name := n, grade := g, email := e }])
  rw [List.pairwise_append]
  refine ⟨h, List.pairwise_singleton _ _, ?_⟩
  intro a ha b hb
  rcases List.mem_singleton.1 hb with rfl
  exact id_lt_nextId ha

lemma idsSorted_update (k : Int) (n g e : String) {rows : List Student}
    (h : idsSorted rows) : idsSorted (update_student k n g e rows) := by
  unfold idsSorted at h ⊢
  unfold update_student
  rw [List.pairwise_map]
  refine h.imp ?_
  intro a b hab
  by_cases ha : a.id = k <;> by_cases hb : b.id = k <;> simp [ha, hb] <;> omega

lemma idsSorted_delete (k : Int) {rows : List Student} (h : idsSorted rows) :
    idsSorted (delete_student k rows) :=
  List.Pairwise.filter _ h

lemma idsSorted_step {rows : List Student} (h : idsSorted rows) (op : Op) :
    idsSorted (step rows op) := by
  cases op with
  | create n g e => exact idsSorted_add n g e h
  | view => exact h
  | update k n g e => exact idsSorted_update k n g e h
  | delete k => exact idsSorted_delete k h

lemma idsSorted_run (ops : List Op) : idsSorted (run ops) := by
  unfold run
  have h : ∀ rows : List Student, idsSorted rows → idsSorted (ops.foldl step rows) := by
    induction ops with
    | nil => intro rows h; exact h
    | cons op rest ih =>
        intro rows h
        rw [List.foldl_cons]
        exact ih _ (idsSorted_step h op)
  exact h [] idsSorted_nil

/-! ### Monotonicity of assigned ids when the maximal record survives -/

lemma assignedIds_mono (ops : List Op) :
    ∀ rows : List Student, deletesBelowMax rows ops = true →
      (∀ i ∈ assignedIds rows ops, maxId rows < i) ∧
      List.Pairwise (fun a b => a < b) (assignedIds rows ops) := by
  induction ops with
  | nil =>
      intro rows _
      refine ⟨?_, List.Pairwise.nil⟩
      intro i hi
      cases hi
  | cons op rest ih =>
      intro rows hd
      cases op with
      | create n g e =>
          have hd' : deletesBelowMax (step rows (.create n g e)) rest = true := hd
          obtain ⟨hall, hpw⟩ := ih _ hd'
          have hmax : maxId (step rows (.create n g e)) = maxId rows + 1 :=
            maxId_add n g e rows
          constructor
          · intro i hi
            rcases List.mem_cons.1 hi with rfl | hi
            · show maxId rows < nextId rows
              unfold nextId; omega
            · have := hall i hi
              rw [hmax] at this
              omega
          · refine List.Pairwise.cons ?_ hpw
            intro b hb
            have := hall b hb
            rw [hmax] at this
            show nextId rows < b
            unfold nextId; omega
      | view =>
          have hd' : deletesBelowMax (step rows .view) rest = true := hd
          exact ih _ hd'
      | update k n g e =>
          have hd' : deletesBelowMax (step rows (.update k n g e)) rest = true := hd
          obtain ⟨hall, hpw⟩ := ih _ hd'
          refine ⟨?_, hpw⟩
          intro i hi
          have := hall i hi
          rwa [show step rows (.update k n g e) = update_student k n g e rows from rfl,
            maxId_update] at this
      | delete k =>
          have hd0 : (decide (k < maxId rows) &&
              deletesBelowMax (step rows (.delete k)) rest) = true := hd
          rw [Bool.and_eq_true, decide_eq_true_eq] at hd0
          obtain ⟨hk, hd'⟩ := hd0
          obtain ⟨hall, hpw⟩ := ih _ hd'
          refine ⟨?_, hpw⟩
          intro i hi
          have := hall i hi
          rwa [show step rows (.delete k) = delete_student k rows from rfl,
            maxId_delete_of_lt hk] at this

/-! ### No-op behaviour on absent ids -/

lemma update_of_absent (k : Int) (n g e : String) :
    ∀ rows : List Student, (∀ s ∈ rows, s.id ≠ k) →
      update_student k n g e rows = rows := by
  intro rows
  induction rows with
  | nil => intro _; rfl
  | cons s ss ih =>
      intro h
      unfold update_student at ih ⊢
      rw [List.map_cons, if_neg (h s (by simp)), ih (fun t ht => h t (by simp [ht]))]

lemma delete_of_absent (k : Int) (rows : List Student)
    (h : ∀ s ∈ rows, s.id ≠ k) : delete_student k rows = rows := by
  unfold delete_student
  rw [List.filter_eq_self]
  intro a ha
  simpa using h a ha

/-! ### Deleting a present id removes exactly one row -/

lemma length_delete (k : Int) :
    ∀ rows : List Student, (ids rows).Nodup → (∃ s ∈ rows, s.id = k) →
      (delete_student k rows).length + 1 = rows.length := by
  intro rows
  induction rows with
  | nil =>
      intro _ h
      rcases h with ⟨s, hs, _⟩
      cases hs
  | cons r rest ih =>
      intro hnd h
      have hnd' : (ids rest).Nodup ∧ r.id ∉ ids rest := by
        have : (ids (r :: rest)) = r.id :: ids rest := rfl
        rw [this, List.nodup_cons] at hnd
        exact ⟨hnd.2, hnd.1⟩
      by_cases hr : r.id = k
      · have hrest : ∀ t ∈ rest, t.id ≠ k := by
          intro t ht htk
          exact hnd'.2 (by rw [← hr, ← htk] at *; exact List.mem_map_of_mem _ ht)
        unfold delete_student
        rw [List.filter_cons]
        have : (decide (r.id ≠ k)) = false := by simp [hr]
        rw [this]
        simp only [Bool.false_eq_true, if_false, List.length_cons]
        have hkeep : delete_student k rest = rest := delete_of_absent k rest hrest
        unfold delete_student at hkeep
        rw [hkeep]
      · rcases h with ⟨s, hs, hsk⟩
        have hs' : s ∈ rest := by
          rcases List.mem_cons.1 hs with rfl | h2
          · exact absurd hsk hr
          · exact h2
        have := ih hnd'.1 ⟨s, hs', hsk⟩
        unfold delete_student at this ⊢
        rw [List.filter_cons]
        have hb : (decide (r.id ≠ k)) = true := by simp [hr]
        rw [hb]
        simp only [if_true, List.length_cons]
        omega

/-! ### Schema-manager idempotence -/

lemma setup_table_idem (db : DBFile) :
    setup_table (setup_table db) = setup_table db := by
  unfold setup_table
  cases h : db.schema <;> simp [h]

lemma setup_table_iterate (m : Nat) (db : DBFile) :
    setup_table^[m] (setup_table db) = setup_table db := by
  induction m with
  | zero => rfl
  | succ n ih => rw [Function.iterate_succ_apply, setup_table_idem, ih]

/-! ### Claim theorems -/

/-- Claim C1, counterexample to the claim as stated: `Create` does not
return the assigned id to the caller.  On the empty store,
`add_student("Ann","A","ann@x.com")` appends the record with freshly
assigned id `1`, but the Python function body has no `return` statement,
so its value is `None` rather than the assigned id `1`. -/
theorem claim_C1_counterexample :
    (add_student "Ann" "A" "ann@x.com" []).1
      = [{ id := 1, name := "Ann", grade := "A", email := "ann@x.com" }] ∧
    ¬ (add_student "Ann" "A" "ann@x.com" []).2 = some 1 := by
  constructor
  · rfl
  · intro h
    cases h

/-- Claim C1, amended: for every call `Create(name, grade, email)` on a
store whose schema exists, the operation appends exactly one new record
carrying a freshly assigned id (strictly larger than every id in use) and
the three given field values, and a subsequent `ReadAll()` contains
exactly one record with those values; the operation does not return the
assigned id (the function returns `None`). -/
theorem claim_C1_amended (name grade email : String) (rows : List Student) :
    (add_student name grade email rows).1
      = rows ++ [{ id := nextId rows, name := name, grade := grade, email := email }] ∧
    (add_student name grade email rows).2 = none ∧
    (∀ s ∈ rows, s.id < nextId rows) ∧
    (view_students_db (add_student name grade email rows).1).count
      { id := nextId rows, name := name, grade := grade, email := email } = 1 := by
  refine ⟨rfl, rfl, fun s hs => id_lt_nextId hs, ?_⟩
  unfold view_students_db add_student
  rw [List.count_append]
  have h0 : List.count
      ({ id := nextId rows, name := name, grade := grade, email := email } : Student)
      rows = 0 := by
    rw [List.count_eq_zero]
    intro hmem
    have := id_lt_nextId hmem
    simp at this
  rw [h0]
  simp

/-- Claim C2, counterexample to the claim as stated: SQLite's
`INTEGER PRIMARY KEY` without `AUTOINCREMENT` allocates `max id in use
plus one`, so after `Create, Create, Delete(2), Create` on a fresh store
the assigned ids are `1, 2, 2`: the id `2` is assigned again after the
record holding the largest id is deleted, so the ids are neither strictly
increasing nor never-reused. -/
theorem claim_C2_counterexample :
    assignedIds []
      [Op.create "a" "a" "a", Op.create "b" "b" "b", Op.delete 2,
       Op.create "c" "c" "c"] = [1, 2, 2] ∧
    ¬ List.Pairwise (fun a b => a < b)
      (assignedIds []
        [Op.create "a" "a" "a", Op.create "b" "b" "b", Op.delete 2,
         Op.create "c" "c" "c"]) := by
  constructor
  · rfl
  · decide

/-- Claim C2, amended: for every sequence of Create, Update and Delete
operations against the same backing file in which every Delete targets an
id strictly below the largest id then in use, the ids assigned by
successive Create calls are strictly increasing and never repeat; when a
Delete removes the record with the largest id, that id can be assigned
again (as the counterexample shows). -/
theorem claim_C2_amended (ops : List Op)
    (h : deletesBelowMax [] ops = true) :
    List.Pairwise (fun a b => a < b) (assignedIds [] ops) ∧
    (assignedIds [] ops).Nodup := by
  obtain ⟨_, hpw⟩ := assignedIds_mono ops [] h
  exact ⟨hpw, hpw.imp (fun hab => ne_of_lt hab)⟩

/-- Witness for `claim_C2_amended` at the concrete sequence
`Create, Create, Delete(1), Create` (the delete targets id `1`, below the
largest id `2` then in use). -/
theorem claim_C2_amended_witness :
    List.Pairwise (fun a b => a < b)
      (assignedIds []
        [Op.create "a" "a" "a", Op.create "b" "b" "b", Op.delete 1,
         Op.create "c" "c" "c"]) :=
  (claim_C2_amended
    [Op.create "a" "a" "a", Op.create "b" "b" "b", Op.delete 1,
     Op.create "c" "c" "c"] (by decide)).1

/-- Claim C3, counterexample to the claim as stated: the source's
operations run `connect_db(); execute(...); commit(); close()` with no
`try`/`finally` or `with` block, so when the executed statement raises a
storage error the exception propagates before `close()` runs and the
connection acquired by that call is not closed.  Shown here for
`update_student`. -/
theorem claim_C3_counterexample :
    (update_student_conn true).raised = true ∧
    (update_student_conn true).closed = false := by
  decide

/-- Claim C3, amended: every Record Store operation opens a connection
and closes it before returning on the normal (non-raising) path; but on
the failure path, where the executed statement raises, the exception
propagates before `commit`/`close` and the connection is not closed. -/
theorem claim_C3_amended (execRaises : Bool) :
    (add_student_conn execRaises).opened = true ∧
    (add_student_conn execRaises).raised = execRaises ∧
    (add_student_conn execRaises).closed = !execRaises ∧
    (view_students_conn execRaises).opened = true ∧
    (view_students_conn execRaises).raised = execRaises ∧
    (view_students_conn execRaises).closed = !execRaises ∧
    (update_student_conn execRaises).opened = true ∧
    (update_student_conn execRaises).raised = execRaises ∧
    (update_student_conn execRaises).closed = !execRaises ∧
    (delete_student_conn execRaises).opened = true ∧
    (delete_student_conn execRaises).raised = execRaises ∧
    (delete_student_conn execRaises).closed = !execRaises := by
  cases execRaises <;> decide

/-- Claim C4, counterexample to the claim as stated: `ReadAll` does not
return the persisted records to its caller.  On a store holding the one
record `(1, "Ann", "A", "ann@x.com")`, `view_students_db()` prints that
record, but the function body has no `return` statement, so its value is
`None` rather than the sequence of records. -/
theorem claim_C4_counterexample :
    view_students_db [{ id := 1, name := "Ann", grade := "A", email := "ann@x.com" }]
      = [{ id := 1, name := "Ann", grade := "A", email := "ann@x.com" }] ∧
    ¬ view_students_db_ret
        [{ id := 1, name := "Ann", grade := "A", email := "ann@x.com" }]
      = some [{ id := 1, name := "Ann", grade := "A", email := "ann@x.com" }] := by
  constructor
  · rfl
  · intro h
    cases h

/-- Claim C4, amended: for every store state reachable from a freshly
schema-initialised store, `ReadAll` emits (prints) exactly the persisted
records in strictly ascending id order; on the empty store it emits the
empty sequence rather than an error; it has no side effects on any
state; however it does not return the sequence to its caller — the
function returns `None`. -/
theorem claim_C4_amended (ops : List Op) (rows : List Student) :
    view_students_db (run ops) = run ops ∧
    idsSorted (view_students_db (run ops)) ∧
    view_students_db [] = [] ∧
    view_students_db_ret rows = none ∧
    step rows Op.view = rows := by
  exact ⟨rfl, idsSorted_run ops, rfl, rfl, rfl⟩

/-- Claim C5: for every store state containing a record with id `k`,
`Update(k, n, g, e)` makes the record `(k, n, g, e)` present (all three
non-id fields overwritten together, id unchanged), preserves the id
sequence of the table, and leaves every record with a different id
unchanged (present before iff present after). -/
theorem claim_C5 (rows : List Student) (k : Int) (n g e : String)
    (h : ∃ s ∈ rows, s.id = k) :
    ({ id := k, name := n, grade := g, email := e } : Student)
      ∈ update_student k n g e rows ∧
    ids (update_student k n g e rows) = ids rows ∧
    (∀ t ∈ rows, t.id ≠ k → t ∈ update_student k n g e rows) ∧
    (∀ t ∈ update_student k n g e rows, t.id ≠ k → t ∈ rows) := by
  obtain ⟨s, hs, hsk⟩ := h
  refine ⟨?_, ids_update k n g e rows, ?_, ?_⟩
  · unfold update_student
    refine List.mem_map.2 ⟨s, hs, ?_⟩
    rw [if_pos hsk]
    show Student.mk s.id n g e = Student.mk k n g e
    rw [hsk]
  · intro t ht htk
    unfold update_student
    refine List.mem_map.2 ⟨t, ht, ?_⟩
    rw [if_neg htk]
  · intro t ht htk
    unfold update_student at ht
    obtain ⟨u, hu, hut⟩ := List.mem_map.1 ht
    by_cases huk : u.id = k
    · rw [if_pos huk] at hut
      have : t.id = k := by rw [← hut, huk]
      exact absurd this htk
    · rw [if_neg huk] at hut
      rw [← hut]
      exact hu

/-- Witness for `claim_C5` at the spec's own example: a store containing
`(1, "Ann", "A", "ann@x.com")`, updated at id `1` to
`("Ben", "B", "ben@x.com")`. -/
theorem claim_C5_witness :
    ({ id := 1, name := "Ben", grade := "B", email := "ben@x.com" } : Student)
      ∈ update_student 1 "Ben" "B" "ben@x.com"
        [{ id := 1, name := "Ann", grade := "A", email := "ann@x.com" }] :=
  (claim_C5 [{ id := 1, name := "Ann", grade := "A", email := "ann@x.com" }]
    1 "Ben" "B" "ben@x.com"
    ⟨{ id := 1, name := "Ann", grade := "A", email := "ann@x.com" },
      by simp, rfl⟩).1

/-- Claim C6: when no record has id `k`, both `Update(k, ...)` and
`Delete(k)` leave the persisted records unchanged, so `ReadAll` before
and after is identical; both operations are total functions here (no
error is raised for an absent id — the SQL statement simply affects zero
rows). -/
theorem claim_C6 (rows : List Student) (k : Int) (n g e : String)
    (h : ∀ s ∈ rows, s.id ≠ k) :
    update_student k n g e rows = rows ∧
    delete_student k rows = rows ∧
    view_students_db (update_student k n g e rows) = view_students_db rows ∧
    view_students_db (delete_student k rows) = view_students_db rows := by
  have hu : update_student k n g e rows = rows := update_of_absent k n g e rows h
  have hd : delete_student k rows = rows := delete_of_absent k rows h
  exact ⟨hu, hd, by rw [hu], by rw [hd]⟩

/-- Witness for `claim_C6` at the spec's example: a store with ids
`{1, 2, 3}` and the absent id `999`. -/
theorem claim_C6_witness :
    update_student 999 "x" "y" "z"
        [{ id := 1, name := "a", grade := "b", email := "c" },
         { id := 2, name := "d", grade := "e", email := "f" },
         { id := 3, name := "g", grade := "h", email := "i" }]
      = [{ id := 1, name := "a", grade := "b", email := "c" },
         { id := 2, name := "d", grade := "e", email := "f" },
         { id := 3, name := "g", grade := "h", email := "i" }] ∧
    delete_student 999
        [{ id := 1, name := "a", grade := "b", email := "c" },
         { id := 2, name := "d", grade := "e", email := "f" },
         { id := 3, name := "g", grade := "h", email := "i" }]
      = [{ id := 1, name := "a", grade := "b", email := "c" },
         { id := 2, name := "d", grade := "e", email := "f" },
         { id := 3, name := "g", grade := "h", email := "i" }] := by
  have h := claim_C6
    [{ id := 1, name := "a", grade := "b", email := "c" },
     { id := 2, name := "d", grade := "e", email := "f" },
     { id := 3, name := "g", grade := "h", email := "i" }]
    999 "x" "y" "z" (by decide)
  exact ⟨h.1, h.2.1⟩

/-- Claim C7: for every sorted store state containing a record with id
`k`, `Delete(k)` removes exactly one record: every surviving record has a
different id, every record with a different id survives unchanged, every
surviving record was already present, the length drops by exactly one,
and the remaining records are still in ascending id order. -/
theorem claim_C7 (rows : List Student) (k : Int)
    (hsort : idsSorted rows) (h : ∃ s ∈ rows, s.id = k) :
    (∀ t ∈ delete_student k rows, t.id ≠ k) ∧
    (∀ t ∈ rows, t.id ≠ k → t ∈ delete_student k rows) ∧
    (∀ t ∈ delete_student k rows, t ∈ rows) ∧
    (delete_student k rows).length + 1 = rows.length ∧
    idsSorted (delete_student k rows) := by
  refine ⟨?_, ?_, ?_, ?_, idsSorted_delete k hsort⟩
  · intro t ht
    exact (mem_delete_iff.1 ht).2
  · intro t ht htk
    exact mem_delete_iff.2 ⟨ht, htk⟩
  · intro t ht
    exact (mem_delete_iff.1 ht).1
  · exact length_delete k rows (idsSorted_nodup hsort) h

/-- Witness for `claim_C7` at the spec's example: ids `{1, 2, 3}`,
deleting id `2`. -/
theorem claim_C7_witness :
    (delete_student 2
        [{ id := 1, name := "a", grade := "b", email := "c" },
         { id := 2, name := "d", grade := "e", email := "f" },
         { id := 3, name := "g", grade := "h", email := "i" }]).length + 1
      = 3 := by
  have h := claim_C7
    [{ id := 1, name := "a", grade := "b", email := "c" },
     { id := 2, name := "d", grade := "e", email := "f" },
     { id := 3, name := "g", grade := "h", email := "i" }]
    2 (by decide)
    ⟨{ id := 2, name := "d", grade := "e", email := "f" }, by simp, rfl⟩
  exact h.2.2.2.1

/-- Claim C8: `ensure_schema` (source name `setup_table`) is idempotent:
for every `N ≥ 1` and every prior database-file state, calling it `N`
times yields exactly the state of calling it once; one call never alters
the persisted rows; afterwards a table exists, and when none existed
before it is created with the four declared columns carrying the
primary-key constraint on `id`. -/
theorem claim_C8 (db : DBFile) (N : Nat) (hN : 1 ≤ N) :
    setup_table^[N] db = setup_table db ∧
    (setup_table db).rows = db.rows ∧
    (setup_table db).schema.isSome = true ∧
    (db.schema = none → (setup_table db).schema = some studentsSchema) ∧
    studentsSchema.length = 4 ∧
    (∃ c ∈ studentsSchema, c.colName = "id" ∧ c.primaryKey = true) := by
  obtain ⟨m, rfl⟩ : ∃ m, N = m + 1 := ⟨N - 1, by omega⟩
  refine ⟨?_, ?_, ?_, ?_, rfl, ?_⟩
  · rw [Function.iterate_succ_apply, setup_table_iterate]
  · unfold setup_table
    cases h : db.schema <;> simp [h]
  · unfold setup_table
    cases h : db.schema <;> simp [h]
  · intro h
    unfold setup_table
    rw [h]
  · exact ⟨{ colName := "id", colType := "INTEGER", notNull := false, primaryKey := true },
      by simp [studentsSchema], rfl, rfl⟩

/-- Witness for `claim_C8` at `N = 3` on an initially table-less file. -/
theorem claim_C8_witness :
    setup_table^[3] ({ schema := none, rows := [] } : DBFile)
      = setup_table { schema := none, rows := [] } :=
  (claim_C8 { schema := none, rows := [] } 3 (by decide)).1

/-- Claim C9, counterexample to the claim as stated: the raw id text
`"-5"` is not a well-formed positive integer, yet Python's `int()`
accepts it, so the menu handler does not signal an invalid id: it invokes
the store operation with identifier `-5` and reports a successful
update.  Only texts rejected by `int()` are caught; positivity is never
checked. -/
theorem claim_C9_counterexample :
    (menu_update_step "-5" "Ben" "B" "ben@x.com" []).storeCalledWith = some (-5) ∧
    (menu_update_step "-5" "Ben" "B" "ben@x.com" []).message = "Student updated." := by
  decide

/-- Claim C9, amended: for every raw id text that is not a well-formed
(optionally signed) integer — i.e. that Python's `int()` rejects with
`ValueError` — both the Update and the Delete menu handlers catch the
error, print the invalid-id message, do not invoke the store operation,
leave the records unchanged, and keep the interaction loop running
(`done` stays false) rather than crashing.  Texts parsing to
non-positive integers are, however, passed through to the store. -/
theorem claim_C9_amended (rawId n g e confirm : String) (rows : List Student)
    (h : pyInt (pyStrip rawId) = none) :
    menu_update_step rawId n g e rows =
      { rows := rows, message := "Invalid ID. Must be a number.",
        storeCalledWith := none, done := false } ∧
    menu_delete_step rawId confirm rows =
      { rows := rows, message := "Invalid ID. Must be a number.",
        storeCalledWith := none, done := false } := by
  unfold menu_update_step menu_delete_step
  rw [h]
  exact ⟨rfl, rfl⟩

/-- Witness for `claim_C9_amended` at the raw text `"abc"`, which
`int()` rejects. -/
theorem claim_C9_amended_witness :
    menu_update_step "abc" "Ben" "B" "ben@x.com" [] =
      { rows := [], message := "Invalid ID. Must be a number.",
        storeCalledWith := none, done := false } :=
  (claim_C9_amended "abc" "Ben" "B" "ben@x.com" "y" [] (by decide)).1

/-- Claim C10: the schema declares `NOT NULL` on `name`, `grade` and
`email`, so a `Create` in which any of the three values is `None` raises
an integrity error before committing, leaving the persisted records
unchanged; and every successful insert stores a record with all four
attributes populated with non-null values. -/
theorem claim_C10 (name grade email : Option String) (rows : List Student)
    (h : name = none ∨ grade = none ∨ email = none) :
    add_student_opt name grade email rows = (some PyError.integrityError, rows) ∧
    ∀ n g e : String, add_student_opt (some n) (some g) (some e) rows =
      (none, rows ++ [{ id := nextId rows, name := n, grade := g, email := e }]) := by
  constructor
  · cases name <;> cases grade <;> cases email <;> simp_all [add_student_opt]
  · intro n g e
    rfl

/-- Witness for `claim_C10` with a `None` name. -/
theorem claim_C10_witness :
    add_student_opt none (some "A") (some "ann@x.com") []
      = (some PyError.integrityError, []) :=
  (claim_C10 none (some "A") (some "ann@x.com") [] (Or.inl rfl)).1

end StudentsStore
